import Mathlib

/-!
Verification of the flashcard-generator front-end controller
(`public/script.js`) against its natural-language specification.

The script is a browser UI controller.  We embed it shallowly:

* the DOM pieces the script reads and writes (overlay visibility, error
  visibility and text, input value, button state, rendered flashcard
  elements, the in-memory `currentFlashcards` array, the session flag)
  become fields of an explicit `AppState` record;
* each event handler becomes a pure state-transformer, with the outcome
  of its asynchronous platform calls (`fetch`, `response.json()`,
  `FileReader.readAsDataURL`) passed in as an explicit parameter;
* platform primitives the script calls (`readAsDataURL` producing a
  base64 data URL, `JSON.stringify(·, null, 2)`, `innerHTML` escaping of
  text nodes) are embedded by their standard, specified behaviour.
-/

/-- One question/answer pair, as delivered by the generation endpoint
(`data.flashcards` entries). -/
structure Flashcard where
  question : String
  answer : String
deriving Repr, DecidableEq

/-- The observable content of one rendered flashcard element, as built by
`createFlashcardElement`: the class name, the front face (number label
`Q<n>` plus escaped question) and the back face (number label `A<n>` plus
escaped answer). -/
structure FlashcardElement where
  className : String
  frontLabel : String
  frontContent : String
  backLabel : String
  backContent : String
deriving Repr, DecidableEq

/-- A selected file: display name, declared media type, raw bytes
(each byte `< 256`). -/
structure FileData where
  name : String
  type : String
  bytes : List Nat
deriving Repr, DecidableEq

/-- The DOM/JS state the script reads and writes.  `*Hidden` fields model
membership of the `hidden` CSS class; text fields model `textContent` /
`value`; `flashcardsContainer` models the children of `#flashcards`;
`currentFlashcards` models the module-level `currentFlashcards` array;
`sessionAuthenticated` models `sessionStorage.getItem('authenticated')`. -/
structure AppState where
  sessionAuthenticated : Bool
  overlayHidden : Bool
  passwordErrorHidden : Bool
  passwordErrorText : String
  passwordInputValue : String
  passwordInputFocused : Bool
  generateBtnDisabled : Bool
  generateBtnText : String
  loadingHidden : Bool
  resultsHidden : Bool
  errorHidden : Bool
  errorText : String
  resultsCountText : String
  flashcardsContainer : List FlashcardElement
  currentFlashcards : List Flashcard
deriving Repr, DecidableEq

/-- Parsed JSON body of a `/api/verify_password` response. -/
structure VerifyResponse where
  success : Bool
  authenticated : Bool
deriving Repr, DecidableEq

/-- Outcome of an awaited `fetch` + `response.json()` pair: either some
exception was thrown (carrying `error.message`), or a parsed body was
obtained. -/
inductive FetchResult (α : Type) where
  | thrown (message : String)
  | ok (data : α)
deriving Repr, DecidableEq

/-- `checkPassword` (script.js lines 16-60): sends the entered password,
then branches on `data.success && data.authenticated`; the `catch` branch
handles a thrown transport/parse error. -/
def checkPassword (s : AppState) (result : FetchResult VerifyResponse) : AppState :=
  match result with
  | .ok data =>
    if data.success && data.authenticated then
      { s with sessionAuthenticated := true
               overlayHidden := true
               passwordErrorHidden := true
               passwordInputValue := "" }
    else
      { s with passwordErrorHidden := false
               passwordInputValue := ""
               passwordInputFocused := true }
  | .thrown _ =>
      { s with passwordErrorText := "❌ Error verifying password"
               passwordErrorHidden := false
               passwordInputValue := "" }

/-- The `change` handler of `#fileInput` (script.js lines 74-83):
`e.target.files[0]` is the head of the selection list. -/
def fileInputChange (s : AppState) (files : List FileData) : AppState :=
  match files.head? with
  | some file =>
      { s with generateBtnDisabled := false
               generateBtnText := "🧠 Generate from " ++ file.name }
  | none =>
      { s with generateBtnDisabled := true
               generateBtnText := "🧠 Generate Flashcards" }

/-- `showLoading` (script.js lines 139-143). -/
def showLoading (s : AppState) : AppState :=
  { s with loadingHidden := false, resultsHidden := true, errorHidden := true }

/-- `showError` (script.js lines 159-164). -/
def showError (s : AppState) (message : String) : AppState :=
  { s with loadingHidden := true
           resultsHidden := true
           errorHidden := false
           errorText := "❌ " ++ message }

/-! ## HTML escaping (`escapeHtml`, script.js lines 186-190)

`escapeHtml` assigns `text` to a detached div's `textContent` and reads back
`innerHTML`, then replaces every newline with `<br>`.  The HTML fragment
serialiser escapes exactly `&`, `<`, `>` and U+00A0 in text nodes; we embed
that per-character rule, then the newline replacement. -/

/-- Per-character escaping performed by reading `innerHTML` of a text node. -/
def htmlEscapeChar (c : Char) : List Char :=
  if c = '&' then ['&', 'a', 'm', 'p', ';']
  else if c = '<' then ['&', 'l', 't', ';']
  else if c = '>' then ['&', 'g', 't', ';']
  else if c = '\u00A0' then ['&', 'n', 'b', 's', 'p', ';']
  else [c]

/-- The `.replace(/\n/g, '<br>')` step, per character. -/
def brReplaceChar (c : Char) : List Char :=
  if c = '\n' then ['<', 'b', 'r', '>'] else [c]

/-- `escapeHtml` on character lists: innerHTML escaping, then the global
newline replacement. -/
def escapeHtmlChars (l : List Char) : List Char :=
  ((l.map htmlEscapeChar).flatten.map brReplaceChar).flatten

/-- `escapeHtml` (script.js lines 186-190). -/
def escapeHtml (text : String) : String :=
  ⟨escapeHtmlChars text.data⟩

/-- Fused per-character form of `escapeHtmlChars`. -/
def escapeHtmlCharFused (c : Char) : List Char :=
  if c = '\n' then ['<', 'b', 'r', '>'] else htmlEscapeChar c

/-- Inverse of `escapeHtml`: decodes the entities `escapeHtml` can emit and
the `<br>` line breaks; all other characters are taken literally. -/
def unescapeHtmlChars : List Char → List Char
  | [] => []
  | '&' :: 'a' :: 'm' :: 'p' :: ';' :: r => '&' :: unescapeHtmlChars r
  | '&' :: 'l' :: 't' :: ';' :: r => '<' :: unescapeHtmlChars r
  | '&' :: 'g' :: 't' :: ';' :: r => '>' :: unescapeHtmlChars r
  | '&' :: 'n' :: 'b' :: 's' :: 'p' :: ';' :: r => '\u00A0' :: unescapeHtmlChars r
  | '<' :: 'b' :: 'r' :: '>' :: r => '\n' :: unescapeHtmlChars r
  | c :: rest => c :: unescapeHtmlChars rest

/-- String form of `unescapeHtmlChars`. -/
def unescapeHtml (s : String) : String :=
  ⟨unescapeHtmlChars s.data⟩

/-- Join fragments with the literal `<br>` separator. -/
def joinBr : List (List Char) → List Char
  | [] => []
  | [f] => f
  | f :: fs => f ++ ['<', 'b', 'r', '>'] ++ joinBr fs

/-! ## Result rendering (`showResults`, `createFlashcardElement`) -/

/-- `createFlashcardElement` (script.js lines 166-184): builds a div of class
`flashcard` whose front face carries the label `Q<number>` and the escaped
question, and whose back face carries `A<number>` and the escaped answer. -/
def createFlashcardElement (card : Flashcard) (number : Nat) : FlashcardElement :=
  { className := "flashcard"
    frontLabel := "Q" ++ toString number
    frontContent := escapeHtml card.question
    backLabel := "A" ++ toString number
    backContent := escapeHtml card.answer }

/-- The `flashcards.forEach((card, index) => ...)` loop of `showResults`:
one element per card, numbered consecutively starting at `number`. -/
def renderCards : List Flashcard → Nat → List FlashcardElement
  | [], _ => []
  | card :: rest, number =>
      createFlashcardElement card number :: renderCards rest (number + 1)

/-- `showResults` (script.js lines 145-157): hides loading, shows results,
hides the error box, sets the count text, empties the container
(`innerHTML = ''`) and appends one element per card, numbered `index + 1`. -/
def showResults (s : AppState) (flashcards : List Flashcard) : AppState :=
  { s with loadingHidden := true
           resultsHidden := false
           errorHidden := true
           resultsCountText :=
             "✅ Generated " ++ toString flashcards.length ++ " flashcards!"
           flashcardsContainer := renderCards flashcards 1 }

/-! ## File encoding and the generation request -/

/-- The standard base64 alphabet. -/
def base64Alphabet : List Char :=
  "ABCDEFGHIJKLMNOPQRSTUVWXYZabcdefghijklmnopqrstuvwxyz0123456789+/".data

/-- Character for one 6-bit group. -/
def base64Char (n : Nat) : Char :=
  base64Alphabet.getD n 'A'

/-- Base64 of a byte sequence, three bytes (four characters) at a time,
with `=` padding. -/
def base64Chunks : List Nat → List Char
  | [] => []
  | [b1] =>
      [base64Char (b1 / 4), base64Char (b1 % 4 * 16), '=', '=']
  | [b1, b2] =>
      [base64Char (b1 / 4), base64Char (b1 % 4 * 16 + b2 / 16),
       base64Char (b2 % 16 * 4), '=']
  | b1 :: b2 :: b3 :: rest =>
      base64Char (b1 / 4) :: base64Char (b1 % 4 * 16 + b2 / 16) ::
      base64Char (b2 % 16 * 4 + b3 / 64) :: base64Char (b3 % 64) ::
      base64Chunks rest

/-- `fileToBase64` (script.js lines 130-137), which resolves with the
platform `FileReader.readAsDataURL` result: a data URL
`data:<media type>;base64,<base64 of the file bytes>`. -/
def fileToBase64 (file : FileData) : String :=
  "data:" ++ file.type ++ ";base64," ++ ⟨base64Chunks file.bytes⟩

/-- JavaScript `String.prototype.split` with a one-character separator:
splits at every occurrence, keeping empty pieces. -/
def jsSplitChar (sep : Char) : List Char → List (List Char)
  | [] => [[]]
  | c :: rest =>
    if c = sep then [] :: jsSplitChar sep rest
    else
      match jsSplitChar sep rest with
      | [] => [[c]]
      | f :: fs => (c :: f) :: fs

/-- Body of the `POST /api/generate_flashcards` request (script.js lines
99-102): `file_content` is `base64File.split(',')[1]` (`none` models the
JavaScript `undefined` when index 1 does not exist), `file_type` is
`file.type`. -/
structure GenerateRequestBody where
  file_content : Option String
  file_type : String
deriving Repr, DecidableEq

/-- The request body built by the generate click handler for `file`. -/
def generateRequestBody (file : FileData) : GenerateRequestBody :=
  { file_content :=
      ((jsSplitChar ',' (fileToBase64 file).data).map
        (fun l => (⟨l⟩ : String)))[1]?
    file_type := file.type }

/-- Parsed JSON body of a `/api/generate_flashcards` response. -/
structure GenerateResponse where
  success : Bool
  flashcards : List Flashcard
  error : Option String
deriving Repr, DecidableEq

/-- Outcome of one generation attempt, as seen by the handler's
`try`/`catch`: an exception thrown before the request was issued (file-read
rejection), an exception thrown after it was issued (transport failure or
body-parse failure), or a parsed response body. -/
inductive GenerateOutcome where
  | thrownBefore (message : String)
  | thrownAfter (message : String)
  | response (data : GenerateResponse)
deriving Repr, DecidableEq

/-- JavaScript `a || b` for the string-or-absent `data.error`: both
`undefined` and the empty string are falsy. -/
def jsOrElse (a : Option String) (fallback : String) : String :=
  match a with
  | some s => if s = "" then fallback else s
  | none => fallback

/-- The `generateBtn` click handler (script.js lines 85-116).  Returns the
new state and the body of the request that was issued, if any. -/
def generateClick (s : AppState) (file : Option FileData)
    (outcome : GenerateOutcome) : AppState × Option GenerateRequestBody :=
  match file with
  | none => (s, none)
  | some f =>
    let s1 := showLoading s
    match outcome with
    | .thrownBefore msg =>
        (showError s1 ("Failed to generate flashcards: " ++ msg), none)
    | .thrownAfter msg =>
        (showError s1 ("Failed to generate flashcards: " ++ msg),
         some (generateRequestBody f))
    | .response data =>
      if data.success then
        (showResults { s1 with currentFlashcards := data.flashcards }
           data.flashcards,
         some (generateRequestBody f))
      else
        (showError s1 (jsOrElse data.error "Failed to generate flashcards"),
         some (generateRequestBody f))

/-! ## Export (`downloadBtn` click handler, script.js lines 118-128)

The exported file content is `JSON.stringify(currentFlashcards, null, 2)`:
a two-space-indented JSON array of `{"question": ..., "answer": ...}`
objects, with standard JSON string escaping. -/

/-- Lowercase hexadecimal digit. -/
def hexDigitChar (n : Nat) : Char :=
  "0123456789abcdef".data.getD n '0'

/-- JSON string escaping as performed by `JSON.stringify`: quote,
backslash and the named control escapes, `\u00XX` for the remaining
control characters, everything else literal. -/
def jsonEscapeChar (c : Char) : List Char :=
  if c = '"' then ['\\', '"']
  else if c = '\\' then ['\\', '\\']
  else if c = '\n' then ['\\', 'n']
  else if c = '\r' then ['\\', 'r']
  else if c = '\t' then ['\\', 't']
  else if c = '\x08' then ['\\', 'b']
  else if c = '\x0c' then ['\\', 'f']
  else if c.toNat < 32 then
    ['\\', 'u', '0', '0', hexDigitChar (c.toNat / 16), hexDigitChar (c.toNat % 16)]
  else [c]

/-- Escaped body of a JSON string literal. -/
def jsonEscapeString (l : List Char) : List Char :=
  (l.map jsonEscapeChar).flatten

/-- Characters between an object's opening brace and the question value
(at indent level 2): brace, newline, four spaces, quoted key, colon,
space, opening quote. -/
def itemOpenChars : List Char :=
  ['\x7b', '\n', ' ', ' ', ' ', ' ', '"', 'q', 'u', 'e', 's', 't', 'i',
   'o', 'n', '"', ':', ' ', '"']

/-- Characters between the question value's closing quote and the answer
value (comma, newline, indent, quoted key, colon, space, opening quote). -/
def answerSepChars : List Char :=
  [',', '\n', ' ', ' ', ' ', ' ', '"', 'a', 'n', 's', 'w', 'e', 'r', '"',
   ':', ' ', '"']

/-- Characters after the answer value's closing quote: newline, indent,
closing brace. -/
def itemCloseChars : List Char :=
  ['\n', ' ', ' ', '\x7d']

/-- One serialised flashcard object (without the array-level separators). -/
def cardChars (card : Flashcard) : List Char :=
  itemOpenChars ++
    (jsonEscapeString card.question.data ++ '"' ::
      (answerSepChars ++
        (jsonEscapeString card.answer.data ++ '"' :: itemCloseChars)))

/-- The serialised objects joined with `,\n  `. -/
def itemsChars : List Flashcard → List Char
  | [] => []
  | [card] => cardChars card
  | card :: next :: rest =>
      cardChars card ++ ',' :: '\n' :: ' ' :: ' ' :: itemsChars (next :: rest)

/-- The full serialised array (two-space indent): `[]` when empty,
otherwise `[\n  ` ++ items ++ `\n]`. -/
def flashcardsJsonChars : List Flashcard → List Char
  | [] => ['[', ']']
  | card :: rest =>
      '[' :: '\n' :: ' ' :: ' ' :: (itemsChars (card :: rest) ++ ['\n', ']'])

/-- `JSON.stringify(cards, null, 2)` for a flashcard array. -/
def jsonStringifyFlashcards (cards : List Flashcard) : String :=
  ⟨flashcardsJsonChars cards⟩

/-- An offered download: target file name and full text content. -/
structure DownloadFile where
  filename : String
  content : String
deriving Repr, DecidableEq

/-- The `downloadBtn` click handler (script.js lines 118-128): no-op when
`currentFlashcards.length === 0`; otherwise offers `flashcards.json`
containing the indented serialisation.  The state is never changed. -/
def downloadClick (s : AppState) : AppState × Option DownloadFile :=
  if s.currentFlashcards.length = 0 then (s, none)
  else
    (s, some { filename := "flashcards.json"
               content := jsonStringifyFlashcards s.currentFlashcards })

/-! ## A JSON reader for the exported format

`parseFlashcardsJson` is the embedding of `JSON.parse` restricted to the
grammar the export emits; it recovers the question/answer pairs. -/

/-- Value of one hexadecimal digit character. -/
def parseHexDigit (c : Char) : Option Nat :=
  let i := "0123456789abcdef".data.indexOf c
  if i < 16 then some i else none

/-- Reads the body of a JSON string literal up to its closing quote;
returns the decoded characters and the remaining input. -/
def parseJsonStringBody : List Char → Option (List Char × List Char)
  | [] => none
  | '"' :: rest => some ([], rest)
  | '\\' :: '"' :: r =>
      (parseJsonStringBody r).map (fun p => ('"' :: p.1, p.2))
  | '\\' :: '\\' :: r =>
      (parseJsonStringBody r).map (fun p => ('\\' :: p.1, p.2))
  | '\\' :: 'n' :: r =>
      (parseJsonStringBody r).map (fun p => ('\n' :: p.1, p.2))
  | '\\' :: 'r' :: r =>
      (parseJsonStringBody r).map (fun p => ('\r' :: p.1, p.2))
  | '\\' :: 't' :: r =>
      (parseJsonStringBody r).map (fun p => ('\t' :: p.1, p.2))
  | '\\' :: 'b' :: r =>
      (parseJsonStringBody r).map (fun p => ('\x08' :: p.1, p.2))
  | '\\' :: 'f' :: r =>
      (parseJsonStringBody r).map (fun p => ('\x0c' :: p.1, p.2))
  | '\\' :: 'u' :: h1 :: h2 :: h3 :: h4 :: r =>
      match parseHexDigit h1, parseHexDigit h2, parseHexDigit h3,
            parseHexDigit h4 with
      | some a, some b, some c, some d =>
          (parseJsonStringBody r).map
            (fun p => (Char.ofNat (((a * 16 + b) * 16 + c) * 16 + d) :: p.1, p.2))
      | _, _, _, _ => none
  | '\\' :: _ => none
  | c :: rest =>
      (parseJsonStringBody rest).map (fun p => (c :: p.1, p.2))

/-- Consumes an exact character sequence from the front of the input. -/
def dropExact : List Char → List Char → Option (List Char)
  | [], l => some l
  | _ :: _, [] => none
  | p :: ps, c :: cs => if c = p then dropExact ps cs else none

/-- Reads the serialised objects (with their separators) followed by the
closing `\n]`; fuelled by an upper bound on the number of objects. -/
def parseItems : Nat → List Char → Option (List Flashcard)
  | 0, _ => none
  | fuel + 1, l =>
    (dropExact itemOpenChars l).bind fun l1 =>
    (parseJsonStringBody l1).bind fun q =>
    (dropExact answerSepChars q.2).bind fun l2 =>
    (parseJsonStringBody l2).bind fun a =>
    (dropExact itemCloseChars a.2).bind fun l3 =>
    match l3 with
    | ['\n', ']'] => some [⟨⟨q.1⟩, ⟨a.1⟩⟩]
    | ',' :: '\n' :: ' ' :: ' ' :: rest =>
        (parseItems fuel rest).map (fun cs => ⟨⟨q.1⟩, ⟨a.1⟩⟩ :: cs)
    | _ => none

/-- `JSON.parse` restricted to the exported flashcard format, on
character lists. -/
def parseFlashcardsChars : List Char → Option (List Flashcard)
  | ['[', ']'] => some []
  | '[' :: '\n' :: ' ' :: ' ' :: rest => parseItems (rest.length + 1) rest
  | _ => none

/-- `JSON.parse` restricted to the exported flashcard format. -/
def parseFlashcardsJson (s : String) : Option (List Flashcard) :=
  parseFlashcardsChars s.data

/-! ## Concrete states for witnesses -/

/-- The page state right after `DOMContentLoaded` with no prior session:
overlay shown, everything else idle. -/
def initState : AppState :=
  { sessionAuthenticated := false
    overlayHidden := false
    passwordErrorHidden := true
    passwordErrorText := ""
    passwordInputValue := ""
    passwordInputFocused := false
    generateBtnDisabled := true
    generateBtnText := "🧠 Generate Flashcards"
    loadingHidden := true
    resultsHidden := true
    errorHidden := true
    errorText := ""
    resultsCountText := ""
    flashcardsContainer := []
    currentFlashcards := [] }

/-- A small concrete selected file (`"Man"` as bytes). -/
def sampleFile : FileData :=
  { name := "notes.txt", type := "text/plain", bytes := [77, 97, 110] }

/-! ## Supporting lemmas: rendering -/

theorem renderCards_length (cards : List Flashcard) (n : Nat) :
    (renderCards cards n).length = cards.length := by
  induction cards generalizing n with
  | nil => rfl
  | cons c rest ih => simp [renderCards, ih]

theorem renderCards_getElem (cards : List Flashcard) (n i : Nat) :
    (renderCards cards n)[i]? =
      (cards[i]?).map (fun c => createFlashcardElement c (n + i)) := by
  induction cards generalizing n i with
  | nil => simp [renderCards]
  | cons c rest ih =>
    cases i with
    | zero => simp [renderCards]
    | succ j =>
      simp only [renderCards, List.getElem?_cons_succ, ih]
      have : n + (j + 1) = n + 1 + j := by omega
      rw [this]

/-! ## Claim theorems: password gate, file intake, no-file guard -/

/-- C4: on a response with `success` and `authenticated` both true,
`checkPassword` sets the session flag, hides the overlay, hides the error
indicator and clears the input; on a well-formed negative response it
leaves the overlay and the session flag unchanged, shows the error
indicator, clears the input and refocuses it. -/
theorem checkPassword_cases (s : AppState) (data : VerifyResponse) :
    ((data.success && data.authenticated) = true →
      (checkPassword s (.ok data)).sessionAuthenticated = true ∧
      (checkPassword s (.ok data)).overlayHidden = true ∧
      (checkPassword s (.ok data)).passwordErrorHidden = true ∧
      (checkPassword s (.ok data)).passwordInputValue = "") ∧
    ((data.success && data.authenticated) = false →
      (checkPassword s (.ok data)).overlayHidden = s.overlayHidden ∧
      (checkPassword s (.ok data)).sessionAuthenticated = s.sessionAuthenticated ∧
      (checkPassword s (.ok data)).passwordErrorHidden = false ∧
      (checkPassword s (.ok data)).passwordInputValue = "" ∧
      (checkPassword s (.ok data)).passwordInputFocused = true) := by
  constructor <;> intro h <;> simp [checkPassword, h]

theorem checkPassword_cases_witness :
    (checkPassword initState (.ok ⟨true, true⟩)).sessionAuthenticated = true ∧
    (checkPassword initState (.ok ⟨false, true⟩)).passwordErrorHidden = false :=
  ⟨((checkPassword_cases initState ⟨true, true⟩).1 rfl).1,
   ((checkPassword_cases initState ⟨false, true⟩).2 rfl).2.2.1⟩

/-- C7: selecting at least one file enables the generate button and puts
the first file's name in its label; selecting zero files disables it and
restores the default label. -/
theorem fileInputChange_cases (s : AppState) (files : List FileData) :
    (∀ f, files.head? = some f →
      (fileInputChange s files).generateBtnDisabled = false ∧
      (fileInputChange s files).generateBtnText =
        "🧠 Generate from " ++ f.name) ∧
    (files = [] →
      (fileInputChange s files).generateBtnDisabled = true ∧
      (fileInputChange s files).generateBtnText = "🧠 Generate Flashcards") := by
  constructor
  · intro f h
    simp [fileInputChange, h]
  · intro h
    subst h
    simp [fileInputChange]

theorem fileInputChange_cases_witness :
    (fileInputChange initState [sampleFile]).generateBtnDisabled = false ∧
    (fileInputChange initState [sampleFile]).generateBtnText =
      "🧠 Generate from " ++ sampleFile.name ∧
    (fileInputChange initState []).generateBtnDisabled = true :=
  ⟨((fileInputChange_cases initState [sampleFile]).1 sampleFile rfl).1,
   ((fileInputChange_cases initState [sampleFile]).1 sampleFile rfl).2,
   ((fileInputChange_cases initState []).2 rfl).1⟩

/-- C8: when the password request throws, `checkPassword` sets the distinct
error text, shows the error indicator and clears the input, leaving the
session flag and the overlay visibility unchanged. -/
theorem checkPassword_transportFailure (s : AppState) (msg : String) :
    (checkPassword s (.thrown msg)).passwordErrorText =
      "❌ Error verifying password" ∧
    (checkPassword s (.thrown msg)).passwordErrorHidden = false ∧
    (checkPassword s (.thrown msg)).passwordInputValue = "" ∧
    (checkPassword s (.thrown msg)).sessionAuthenticated =
      s.sessionAuthenticated ∧
    (checkPassword s (.thrown msg)).overlayHidden = s.overlayHidden := by
  simp [checkPassword]

/-- C10: clicking generate with no selected file is a complete no-op: the
state is returned untouched and no request is issued. -/
theorem generateClick_noFile (s : AppState) (outcome : GenerateOutcome) :
    generateClick s none outcome = (s, none) := rfl

/-- C1: a successful generation response with pairs `fs` renders exactly
`fs.length` elements in list order; the element at 0-based position `i`
is a `flashcard` div with label `Q(i+1)` and the escaped question on its
front and label `A(i+1)` and the escaped answer on its back; the count
text cites `fs.length` cards; and the rendered list does not depend on the
previous state (prior contents are fully replaced). -/
theorem generateSuccess_renders (s : AppState) (f : FileData)
    (fs : List Flashcard) (err : Option String) :
    ((generateClick s (some f)
        (.response ⟨true, fs, err⟩)).1.flashcardsContainer.length =
      fs.length) ∧
    (∀ (i : Nat) (q a : String), fs[i]? = some ⟨q, a⟩ →
      (generateClick s (some f)
          (.response ⟨true, fs, err⟩)).1.flashcardsContainer[i]? = some
        { className := "flashcard"
          frontLabel := "Q" ++ toString (i + 1)
          frontContent := escapeHtml q
          backLabel := "A" ++ toString (i + 1)
          backContent := escapeHtml a }) ∧
    ((generateClick s (some f)
        (.response ⟨true, fs, err⟩)).1.resultsCountText =
      "✅ Generated " ++ toString fs.length ++ " flashcards!") ∧
    ((generateClick s (some f)
        (.response ⟨true, fs, err⟩)).1.resultsHidden = false) ∧
    (∀ t : AppState,
      (generateClick t (some f)
          (.response ⟨true, fs, err⟩)).1.flashcardsContainer =
        (generateClick s (some f)
          (.response ⟨true, fs, err⟩)).1.flashcardsContainer) := by
  refine ⟨?_, ?_, ?_, ?_, ?_⟩
  · simp [generateClick, showResults, showLoading, renderCards_length]
  · intro i q a h
    simp [generateClick, showResults, showLoading, renderCards_getElem, h,
      createFlashcardElement, Nat.add_comm]
  · simp [generateClick, showResults, showLoading]
  · simp [generateClick, showResults, showLoading]
  · intro t
    simp [generateClick, showResults, showLoading]

theorem generateSuccess_renders_witness :
    (generateClick initState (some sampleFile)
        (.response ⟨true, [⟨"2+2?", "4"⟩], none⟩)).1.flashcardsContainer[0]? =
      some
        { className := "flashcard"
          frontLabel := "Q" ++ toString (0 + 1)
          frontContent := escapeHtml "2+2?"
          backLabel := "A" ++ toString (0 + 1)
          backContent := escapeHtml "4" } :=
  (generateSuccess_renders initState sampleFile [⟨"2+2?", "4"⟩] none).2.1
    0 "2+2?" "4" rfl

/-! ## Supporting lemmas: HTML escaping -/

theorem escapeHtmlChars_cons (c : Char) (l : List Char) :
    escapeHtmlChars (c :: l) = escapeHtmlCharFused c ++ escapeHtmlChars l := by
  have expand : escapeHtmlChars (c :: l) =
      ((htmlEscapeChar c).map brReplaceChar).flatten ++ escapeHtmlChars l := by
    simp [escapeHtmlChars]
  rw [expand]
  congr 1
  by_cases h1 : c = '&'
  · subst h1; decide
  by_cases h2 : c = '<'
  · subst h2; decide
  by_cases h3 : c = '>'
  · subst h3; decide
  by_cases h4 : c = ' '
  · subst h4; decide
  by_cases h5 : c = '\n'
  · subst h5; decide
  · simp [htmlEscapeChar, brReplaceChar, escapeHtmlCharFused, h1, h2, h3, h4, h5]

set_option maxHeartbeats 2000000 in
theorem unescape_cons_plain (c : Char) (l : List Char)
    (h1 : c ≠ '&') (h2 : c ≠ '<') :
    unescapeHtmlChars (c :: l) = c :: unescapeHtmlChars l := by
  rw [unescapeHtmlChars.eq_def]
  split <;> simp_all

theorem unescape_escape (l : List Char) :
    unescapeHtmlChars (escapeHtmlChars l) = l := by
  induction l with
  | nil => rfl
  | cons c rest ih =>
    rw [escapeHtmlChars_cons]
    by_cases h1 : c = '&'
    · subst h1
      rw [show escapeHtmlCharFused '&' = ['&', 'a', 'm', 'p', ';'] from by decide]
      simp [unescapeHtmlChars, ih]
    by_cases h2 : c = '<'
    · subst h2
      rw [show escapeHtmlCharFused '<' = ['&', 'l', 't', ';'] from by decide]
      simp [unescapeHtmlChars, ih]
    by_cases h3 : c = '>'
    · subst h3
      rw [show escapeHtmlCharFused '>' = ['&', 'g', 't', ';'] from by decide]
      simp [unescapeHtmlChars, ih]
    by_cases h4 : c = ' '
    · subst h4
      rw [show escapeHtmlCharFused ' ' = ['&', 'n', 'b', 's', 'p', ';'] from by decide]
      simp [unescapeHtmlChars, ih]
    by_cases h5 : c = '\n'
    · subst h5
      rw [show escapeHtmlCharFused '\n' = ['<', 'b', 'r', '>'] from by decide]
      simp [unescapeHtmlChars, ih]
    · have hfused : escapeHtmlCharFused c = [c] := by
        simp [escapeHtmlCharFused, htmlEscapeChar, h1, h2, h3, h4, h5]
      rw [hfused, List.singleton_append, unescape_cons_plain c _ h1 h2, ih]

theorem joinBr_cons (f : List Char) (fs : List (List Char)) (h : fs ≠ []) :
    joinBr (f :: fs) = f ++ ['<', 'b', 'r', '>'] ++ joinBr fs := by
  cases fs with
  | nil => exact absurd rfl h
  | cons g gs => rfl

theorem joinBr_prepend (x f : List Char) (fs : List (List Char)) :
    joinBr ((x ++ f) :: fs) = x ++ joinBr (f :: fs) := by
  cases fs with
  | nil => rfl
  | cons g gs => simp [joinBr, List.append_assoc]

theorem fused_no_angle (c : Char) (h : c ≠ '\n') :
    ∀ d ∈ escapeHtmlCharFused c, d ≠ '<' ∧ d ≠ '>' := by
  by_cases h1 : c = '&'
  · subst h1; decide
  by_cases h2 : c = '<'
  · subst h2; decide
  by_cases h3 : c = '>'
  · subst h3; decide
  by_cases h4 : c = ' '
  · subst h4; decide
  · intro d hd
    simp [escapeHtmlCharFused, htmlEscapeChar, h, h1, h2, h3, h4] at hd
    subst hd
    exact ⟨h2, h3⟩

theorem escape_fragments (l : List Char) :
    ∃ frags : List (List Char), frags ≠ [] ∧
      frags.length = l.count '\n' + 1 ∧
      escapeHtmlChars l = joinBr frags ∧
      ∀ f ∈ frags, ∀ c ∈ f, c ≠ '<' ∧ c ≠ '>' := by
  induction l with
  | nil =>
    refine ⟨[[]], by simp, by simp, by simp [escapeHtmlChars, joinBr], by simp⟩
  | cons c rest ih =>
    obtain ⟨frags, hne, hlen, heq, hsafe⟩ := ih
    by_cases hc : c = '\n'
    · subst hc
      refine ⟨[] :: frags, by simp, ?_, ?_, ?_⟩
      · simp [hlen, List.count_cons]
      · rw [escapeHtmlChars_cons,
          show escapeHtmlCharFused '\n' = ['<', 'b', 'r', '>'] from by decide,
          joinBr_cons _ _ hne, heq]
        simp
      · intro f hf d hd
        rcases List.mem_cons.mp hf with hf | hf
        · subst hf; simp at hd
        · exact hsafe f hf d hd
    · obtain ⟨f, fs, rfl⟩ : ∃ f fs, frags = f :: fs := by
        cases frags with
        | nil => exact absurd rfl hne
        | cons f fs => exact ⟨f, fs, rfl⟩
      refine ⟨(escapeHtmlCharFused c ++ f) :: fs, by simp, ?_, ?_, ?_⟩
      · simpa [List.count_cons, hc] using hlen
      · rw [escapeHtmlChars_cons, heq, joinBr_prepend]
      · intro g hg d hd
        rcases List.mem_cons.mp hg with hg | hg
        · subst hg
          rcases List.mem_append.mp hd with hd | hd
          · exact fused_no_angle c hc d hd
          · exact hsafe f (List.mem_cons_self f fs) d hd
        · exact hsafe g (List.mem_cons_of_mem f hg) d hd

/-- C3: the escaping applied before display neutralises markup: escaping
`<script>` yields the literal entity text; escaping is lossless (the
decoded output recovers the original text exactly, so it reads as literal
text); and the escaped output is a `<br>`-separated join of fragments —
one fragment per newline-delimited piece — none of which contains `<` or
`>`, so the only markup in the output is the line-break substitutions. -/
theorem escapeHtml_neutralises :
    escapeHtml "<script>" = "&lt;script&gt;" ∧
    (∀ s : String, unescapeHtml (escapeHtml s) = s) ∧
    (∀ s : String, ∃ frags : List (List Char), frags ≠ [] ∧
      frags.length = s.data.count '\n' + 1 ∧
      (escapeHtml s).data = joinBr frags ∧
      ∀ f ∈ frags, ∀ c ∈ f, c ≠ '<' ∧ c ≠ '>') := by
  refine ⟨by decide, fun s => ?_, fun s => ?_⟩
  · exact congrArg String.mk (unescape_escape s.data)
  · simpa [escapeHtml] using escape_fragments s.data

theorem escapeHtml_neutralises_witness :
    unescapeHtml (escapeHtml "a\nb<c>&") = "a\nb<c>&" :=
  escapeHtml_neutralises.2.1 "a\nb<c>&"

/-! ## Supporting lemmas: base64 and the request body -/

theorem base64Char_ne_comma (n : Nat) : base64Char n ≠ ',' := by
  by_cases h : n < 64
  · exact (by decide : ∀ m, m < 64 → base64Char m ≠ ',') n h
  · have hlen : base64Alphabet.length = 64 := by decide
    rw [base64Char, List.getD_eq_default]
    · decide
    · omega

theorem comma_ne_base64Char (n : Nat) : ',' ≠ base64Char n :=
  (base64Char_ne_comma n).symm

theorem base64Chunks_ne_comma (bytes : List Nat) : ',' ∉ base64Chunks bytes := by
  induction bytes using base64Chunks.induct with
  | case1 => simp [base64Chunks]
  | case2 b1 => simp [base64Chunks, comma_ne_base64Char]
  | case3 b1 b2 => simp [base64Chunks, comma_ne_base64Char]
  | case4 b1 b2 b3 rest ih => simp [base64Chunks, comma_ne_base64Char, ih]

theorem jsSplitChar_no_sep (sep : Char) (l : List Char) (h : sep ∉ l) :
    jsSplitChar sep l = [l] := by
  induction l with
  | nil => rfl
  | cons c rest ih =>
    have hc : ¬c = sep := fun hcs => h (hcs ▸ List.mem_cons_self c rest)
    have hrest : sep ∉ rest := fun hm => h (List.mem_cons_of_mem c hm)
    simp [jsSplitChar, hc, ih hrest]

theorem jsSplitChar_first (sep : Char) (p q : List Char) (h : sep ∉ p) :
    jsSplitChar sep (p ++ sep :: q) = p :: jsSplitChar sep q := by
  induction p with
  | nil => simp [jsSplitChar]
  | cons c rest ih =>
    have hc : ¬c = sep := fun hcs => h (hcs ▸ List.mem_cons_self c rest)
    have hrest : sep ∉ rest := fun hm => h (List.mem_cons_of_mem c hm)
    simp [jsSplitChar, hc, ih hrest]

theorem dropWhile_first (sep : Char) (p q : List Char) (h : sep ∉ p) :
    (p ++ sep :: q).dropWhile (fun c => c != sep) = sep :: q := by
  induction p with
  | nil => simp [List.dropWhile_cons]
  | cons c rest ih =>
    have hc : ¬c = sep := fun hcs => h (hcs ▸ List.mem_cons_self c rest)
    have hrest : sep ∉ rest := fun hm => h (List.mem_cons_of_mem c hm)
    simp [List.dropWhile_cons, hc, ih hrest]

/-- C5: for a selected file whose declared media type contains no comma
(true of every media type), the generation request body carries as
`file_content` exactly the base64 payload of the data URL — the text after
the first comma, i.e. the encoding with the `data:<type>;base64,` prefix
stripped — and as `file_type` the file's declared media type. -/
theorem generateRequest_content (file : FileData)
    (h : ',' ∉ file.type.data) :
    (generateRequestBody file).file_content =
      some ⟨base64Chunks file.bytes⟩ ∧
    (generateRequestBody file).file_type = file.type ∧
    (fileToBase64 file).data =
      ("data:" ++ file.type ++ ";base64").data ++
        ',' :: base64Chunks file.bytes ∧
    ((fileToBase64 file).data.dropWhile (fun c => c != ',')).drop 1 =
      base64Chunks file.bytes := by
  have hpre : ',' ∉ ("data:" ++ file.type ++ ";base64").data := by
    simp only [String.data_append, List.mem_append]
    rintro ((hm | hm) | hm)
    · revert hm; decide
    · exact h hm
    · revert hm; decide
  have hsplit : (fileToBase64 file).data =
      ("data:" ++ file.type ++ ";base64").data ++
        ',' :: base64Chunks file.bytes := by
    show ("data:" ++ file.type ++ ";base64," ++ ⟨base64Chunks file.bytes⟩).data = _
    simp [String.data_append, List.append_assoc]
  refine ⟨?_, rfl, hsplit, ?_⟩
  · show ((jsSplitChar ',' (fileToBase64 file).data).map
        (fun l => (⟨l⟩ : String)))[1]? = _
    rw [hsplit, jsSplitChar_first _ _ _ hpre,
      jsSplitChar_no_sep _ _ (base64Chunks_ne_comma file.bytes)]
    rfl
  · rw [hsplit, dropWhile_first _ _ _ hpre]
    rfl

theorem generateRequest_content_witness :
    (',' ∉ "text/plain".data) ∧
    (generateRequestBody sampleFile).file_content = some "TWFu" ∧
    (generateRequestBody sampleFile).file_type = "text/plain" := by
  have h := generateRequest_content sampleFile (by decide)
  exact ⟨by decide, h.1.trans (by decide), h.2.1⟩

/-! ## Supporting lemmas: the exported JSON round-trips -/

theorem dropExact_append (p l : List Char) : dropExact p (p ++ l) = some l := by
  induction p with
  | nil => rfl
  | cons c rest ih => simp [dropExact, ih]

theorem parseHexDigit_hexDigitChar (n : Nat) (h : n < 16) :
    parseHexDigit (hexDigitChar n) = some n :=
  (by decide : ∀ m, m < 16 → parseHexDigit (hexDigitChar m) = some m) n h

set_option maxHeartbeats 2000000 in
theorem parseJsonStringBody_cons_plain (c : Char) (l : List Char)
    (h1 : c ≠ '"') (h2 : c ≠ '\\') :
    parseJsonStringBody (c :: l) =
      (parseJsonStringBody l).map (fun p => (c :: p.1, p.2)) := by
  rw [parseJsonStringBody.eq_def]
  split <;> simp_all

theorem parseJsonStringBody_escape (s : List Char) : ∀ rest : List Char,
    parseJsonStringBody (jsonEscapeString s ++ '"' :: rest) = some (s, rest) := by
  induction s with
  | nil => intro rest; simp [jsonEscapeString, parseJsonStringBody]
  | cons c s ih =>
    intro rest
    have hexpand : jsonEscapeString (c :: s) =
        jsonEscapeChar c ++ jsonEscapeString s := by
      simp [jsonEscapeString]
    rw [hexpand, List.append_assoc]
    by_cases h1 : c = '"'
    · subst h1
      rw [show jsonEscapeChar '"' = ['\\', '"'] from by decide]
      simp [parseJsonStringBody, ih]
    by_cases h2 : c = '\\'
    · subst h2
      rw [show jsonEscapeChar '\\' = ['\\', '\\'] from by decide]
      simp [parseJsonStringBody, ih]
    by_cases h3 : c = '\n'
    · subst h3
      rw [show jsonEscapeChar '\n' = ['\\', 'n'] from by decide]
      simp [parseJsonStringBody, ih]
    by_cases h4 : c = '\r'
    · subst h4
      rw [show jsonEscapeChar '\r' = ['\\', 'r'] from by decide]
      simp [parseJsonStringBody, ih]
    by_cases h5 : c = '\t'
    · subst h5
      rw [show jsonEscapeChar '\t' = ['\\', 't'] from by decide]
      simp [parseJsonStringBody, ih]
    by_cases h6 : c = '\x08'
    · subst h6
      rw [show jsonEscapeChar '\x08' = ['\\', 'b'] from by decide]
      simp [parseJsonStringBody, ih]
    by_cases h7 : c = '\x0c'
    · subst h7
      rw [show jsonEscapeChar '\x0c' = ['\\', 'f'] from by decide]
      simp [parseJsonStringBody, ih]
    by_cases h8 : c.toNat < 32
    · have hesc : jsonEscapeChar c =
          ['\\', 'u', '0', '0', hexDigitChar (c.toNat / 16),
           hexDigitChar (c.toNat % 16)] := by
        simp [jsonEscapeChar, h1, h2, h3, h4, h5, h6, h7, h8]
      have hd1 : parseHexDigit (hexDigitChar (c.toNat / 16)) =
          some (c.toNat / 16) :=
        parseHexDigit_hexDigitChar _ (by omega)
      have hd2 : parseHexDigit (hexDigitChar (c.toNat % 16)) =
          some (c.toNat % 16) :=
        parseHexDigit_hexDigitChar _ (by omega)
      rw [hesc]
      simp only [List.cons_append, List.nil_append]
      rw [parseJsonStringBody]
      rw [show parseHexDigit '0' = some 0 from by decide, hd1, hd2]
      simp only [ih]
      have hv : ((0 * 16 + 0) * 16 + c.toNat / 16) * 16 + c.toNat % 16 =
          c.toNat := by omega
      rw [hv, Char.ofNat_toNat]
      rfl
    · have hesc : jsonEscapeChar c = [c] := by
        simp [jsonEscapeChar, h1, h2, h3, h4, h5, h6, h7, h8]
      rw [hesc]
      simp only [List.cons_append, List.nil_append]
      rw [parseJsonStringBody_cons_plain c _ h1 h2, ih]
      rfl

theorem cardChars_length_pos (card : Flashcard) : 1 ≤ (cardChars card).length := by
  simp [cardChars, itemOpenChars]

theorem itemsChars_length_ge (cards : List Flashcard) :
    cards.length ≤ (itemsChars cards).length := by
  induction cards with
  | nil => simp [itemsChars]
  | cons c cs ih =>
    cases cs with
    | nil =>
      simpa [itemsChars] using cardChars_length_pos c
    | cons c2 cs2 =>
      have h1 := cardChars_length_pos c
      simp only [itemsChars, List.length_append, List.length_cons,
        List.length_cons] at ih ⊢
      omega

theorem parseItems_round (cards : List Flashcard) : ∀ fuel : Nat,
    cards ≠ [] → cards.length ≤ fuel →
    parseItems fuel (itemsChars cards ++ ['\n', ']']) = some cards := by
  induction cards with
  | nil => intro fuel h; exact absurd rfl h
  | cons c cs ih =>
    intro fuel _ hlen
    cases fuel with
    | zero => simp at hlen
    | succ f =>
      cases cs with
      | nil =>
        show parseItems (f + 1) (itemsChars [c] ++ ['\n', ']']) = some [c]
        rw [show itemsChars [c] = cardChars c from rfl]
        rw [parseItems]
        rw [show cardChars c ++ ['\n', ']'] =
          itemOpenChars ++
            (jsonEscapeString c.question.data ++ '"' ::
              (answerSepChars ++
                (jsonEscapeString c.answer.data ++ '"' ::
                  (itemCloseChars ++ ['\n', ']'])))) from by
          simp [cardChars, List.append_assoc]]
        rw [dropExact_append]
        simp only [Option.some_bind]
        rw [parseJsonStringBody_escape]
        simp only [Option.some_bind]
        rw [dropExact_append]
        simp only [Option.some_bind]
        rw [parseJsonStringBody_escape]
        simp only [Option.some_bind]
        rw [dropExact_append]
        simp only [Option.some_bind]
      | cons c2 cs2 =>
        show parseItems (f + 1)
            (itemsChars (c :: c2 :: cs2) ++ ['\n', ']']) = some (c :: c2 :: cs2)
        rw [show itemsChars (c :: c2 :: cs2) =
          cardChars c ++ ',' :: '\n' :: ' ' :: ' ' :: itemsChars (c2 :: cs2)
          from rfl]
        rw [parseItems]
        rw [show (cardChars c ++
              ',' :: '\n' :: ' ' :: ' ' :: itemsChars (c2 :: cs2)) ++ ['\n', ']'] =
          itemOpenChars ++
            (jsonEscapeString c.question.data ++ '"' ::
              (answerSepChars ++
                (jsonEscapeString c.answer.data ++ '"' ::
                  (itemCloseChars ++
                    ',' :: '\n' :: ' ' :: ' ' ::
                      (itemsChars (c2 :: cs2) ++ ['\n', ']']))))) from by
          simp [cardChars, List.append_assoc]]
        rw [dropExact_append]
        simp only [Option.some_bind]
        rw [parseJsonStringBody_escape]
        simp only [Option.some_bind]
        rw [dropExact_append]
        simp only [Option.some_bind]
        rw [parseJsonStringBody_escape]
        simp only [Option.some_bind]
        rw [dropExact_append]
        simp only [Option.some_bind]
        have hrec := ih f (by simp) (by simpa using Nat.le_of_succ_le_succ hlen)
        simp [hrec]
      
theorem parseFlashcardsChars_roundtrip (cards : List Flashcard) :
    parseFlashcardsChars (flashcardsJsonChars cards) = some cards := by
  cases cards with
  | nil => rfl
  | cons c cs =>
    rw [show flashcardsJsonChars (c :: cs) =
      '[' :: '\n' :: ' ' :: ' ' :: (itemsChars (c :: cs) ++ ['\n', ']'])
      from rfl]
    rw [parseFlashcardsChars]
    apply parseItems_round
    · simp
    · have h := itemsChars_length_ge (c :: cs)
      simp only [List.length_append, List.length_cons, List.length_nil] at h ⊢
      omega

theorem parseFlashcardsJson_roundtrip (cards : List Flashcard) :
    parseFlashcardsJson (jsonStringifyFlashcards cards) = some cards :=
  parseFlashcardsChars_roundtrip cards

/-! ## Claim theorems: export, failure preservation, error messages -/

/-- C2: exporting with an empty Flashcard Collection is a no-op (no
download, state untouched); with a non-empty collection it offers a file
named `flashcards.json` whose indented JSON content parses back to exactly
the stored collection — and a successful generation stores exactly the
rendered pairs in that collection. -/
theorem downloadClick_export (s : AppState) :
    (s.currentFlashcards = [] → downloadClick s = (s, none)) ∧
    (s.currentFlashcards ≠ [] →
      (downloadClick s).1 = s ∧
      (downloadClick s).2 = some
        { filename := "flashcards.json"
          content := jsonStringifyFlashcards s.currentFlashcards } ∧
      parseFlashcardsJson (jsonStringifyFlashcards s.currentFlashcards) =
        some s.currentFlashcards) ∧
    (∀ (f : FileData) (fs : List Flashcard) (err : Option String),
      (generateClick s (some f)
        (.response ⟨true, fs, err⟩)).1.currentFlashcards = fs) := by
  refine ⟨?_, ?_, ?_⟩
  · intro h
    simp [downloadClick, h]
  · intro h
    have hlen : ¬s.currentFlashcards.length = 0 := by
      simpa [List.length_eq_zero] using h
    exact ⟨by simp [downloadClick, hlen], by simp [downloadClick, hlen],
      parseFlashcardsJson_roundtrip s.currentFlashcards⟩
  · intro f fs err
    simp [generateClick, showResults, showLoading]

theorem downloadClick_export_witness :
    (downloadClick initState = (initState, none)) ∧
    (downloadClick { initState with
        currentFlashcards := [⟨"2+2?", "4"⟩] }).2 = some
      { filename := "flashcards.json"
        content := jsonStringifyFlashcards [⟨"2+2?", "4"⟩] } ∧
    parseFlashcardsJson (jsonStringifyFlashcards [⟨"2+2?", "4"⟩]) =
      some [⟨"2+2?", "4"⟩] :=
  ⟨(downloadClick_export initState).1 rfl,
   ((downloadClick_export { initState with
      currentFlashcards := [⟨"2+2?", "4"⟩] }).2.1 (by simp)).2.1,
   ((downloadClick_export { initState with
      currentFlashcards := [⟨"2+2?", "4"⟩] }).2.1 (by simp)).2.2⟩

/-- C9: every generation attempt that does not reach the success branch —
negative response, exception before or after the request, or no selected
file — leaves the stored Flashcard Collection unchanged, so a subsequent
export still serialises the collection from the last successful
generation. -/
theorem generateFailure_preservesCollection (s : AppState) (f : FileData)
    (data : GenerateResponse) (msgB msgA : String) :
    (data.success = false →
      (generateClick s (some f) (.response data)).1.currentFlashcards =
        s.currentFlashcards) ∧
    ((generateClick s (some f) (.thrownBefore msgB)).1.currentFlashcards =
      s.currentFlashcards) ∧
    ((generateClick s (some f) (.thrownAfter msgA)).1.currentFlashcards =
      s.currentFlashcards) ∧
    (∀ outcome : GenerateOutcome,
      (generateClick s none outcome).1.currentFlashcards =
        s.currentFlashcards) ∧
    (data.success = false → s.currentFlashcards ≠ [] →
      (downloadClick (generateClick s (some f) (.response data)).1).2 =
        some { filename := "flashcards.json"
               content := jsonStringifyFlashcards s.currentFlashcards }) := by
  refine ⟨?_, ?_, ?_, ?_, ?_⟩
  · intro h
    simp [generateClick, showError, showLoading, h]
  · simp [generateClick, showError, showLoading]
  · simp [generateClick, showError, showLoading]
  · intro outcome
    rfl
  · intro h hne
    have hlen : ¬s.currentFlashcards.length = 0 := by
      simpa [List.length_eq_zero] using hne
    simp [generateClick, showError, showLoading, h, downloadClick, hlen]

theorem generateFailure_preservesCollection_witness :
    (generateClick { initState with currentFlashcards := [⟨"q", "a"⟩] }
        (some sampleFile)
        (.response ⟨false, [], none⟩)).1.currentFlashcards = [⟨"q", "a"⟩] ∧
    (downloadClick (generateClick
        { initState with currentFlashcards := [⟨"q", "a"⟩] }
        (some sampleFile) (.response ⟨false, [], none⟩)).1).2 =
      some { filename := "flashcards.json"
             content := jsonStringifyFlashcards [⟨"q", "a"⟩] } :=
  ⟨(generateFailure_preservesCollection
      { initState with currentFlashcards := [⟨"q", "a"⟩] }
      sampleFile ⟨false, [], none⟩ "" "").1 rfl,
   (generateFailure_preservesCollection
      { initState with currentFlashcards := [⟨"q", "a"⟩] }
      sampleFile ⟨false, [], none⟩ "" "").2.2.2.2 rfl (by simp)⟩

/-- C6 counterexample: a well-formed negative response can carry an
`error` field that is present but empty; the code then displays the
generic fallback message rather than the (empty) server-provided error
text, so "the generic fallback message when the server provides none" does
not cover this input as stated. -/
theorem generateError_empty_counterexample :
    (generateClick initState (some sampleFile)
        (.response ⟨false, [], some ""⟩)).1.errorText =
      "❌ Failed to generate flashcards" ∧
    (generateClick initState (some sampleFile)
        (.response ⟨false, [], some ""⟩)).1.errorText ≠ "❌ " ∧
    (generateClick initState (some sampleFile)
        (.response ⟨false, [], some ""⟩)).1.errorText ≠ "" := by
  refine ⟨?_, ?_, ?_⟩ <;> decide

/-- C6 (amended): on a well-formed negative response the displayed error
text is the error marker followed by the server-provided error text, or by
the generic fallback when the server provides none or provides the empty
string; on a thrown transport/encoding exception it is the marker followed
by the fixed prefix and the exception's description; in each case the
error box is shown. -/
theorem generateError_messages (s : AppState) (f : FileData)
    (fl : List Flashcard) (errField : Option String) (e msg : String) :
    ((generateClick s (some f)
        (.response ⟨false, fl, errField⟩)).1.errorHidden = false) ∧
    (errField = some e → e ≠ "" →
      (generateClick s (some f)
          (.response ⟨false, fl, errField⟩)).1.errorText = "❌ " ++ e) ∧
    (errField = none ∨ errField = some "" →
      (generateClick s (some f)
          (.response ⟨false, fl, errField⟩)).1.errorText =
        "❌ " ++ "Failed to generate flashcards") ∧
    ((generateClick s (some f) (.thrownBefore msg)).1.errorText =
      "❌ " ++ ("Failed to generate flashcards: " ++ msg)) ∧
    ((generateClick s (some f) (.thrownAfter msg)).1.errorText =
      "❌ " ++ ("Failed to generate flashcards: " ++ msg)) ∧
    ((generateClick s (some f) (.thrownBefore msg)).1.errorHidden = false) ∧
    ((generateClick s (some f) (.thrownAfter msg)).1.errorHidden = false) := by
  refine ⟨?_, ?_, ?_, ?_, ?_, ?_, ?_⟩
  · simp [generateClick, showError, showLoading]
  · intro he hne
    subst he
    simp [generateClick, showError, showLoading, jsOrElse, hne]
  · rintro (he | he) <;> subst he <;>
      simp [generateClick, showError, showLoading, jsOrElse]
  · simp [generateClick, showError, showLoading]
  · simp [generateClick, showError, showLoading]
  · simp [generateClick, showError, showLoading]
  · simp [generateClick, showError, showLoading]

theorem generateError_messages_witness :
    ((generateClick initState (some sampleFile)
        (.response ⟨false, [], some "quota exceeded"⟩)).1.errorText =
      "❌ " ++ "quota exceeded") ∧
    ((generateClick initState (some sampleFile)
        (.response ⟨false, [], none⟩)).1.errorText =
      "❌ " ++ "Failed to generate flashcards") :=
  ⟨(generateError_messages initState sampleFile [] (some "quota exceeded")
      "quota exceeded" "").2.1 rfl (by decide),
   (generateError_messages initState sampleFile [] none "" "").2.2.1
      (Or.inl rfl)⟩
